import Mathlib

/-!
Shallow embedding of the trend-analysis pipeline of the `ai_trend_analyzer`
repository (files `services/trend_service.py`, `tasks/background_tasks.py`,
`models.py`).  Database tables are lists of row records, SQLAlchemy queries
become list comprehensions, and the Python functions become state-passing
Lean functions.  Python `float` arithmetic is idealised as exact rational
arithmetic; Python's `round(x, 2)` (round-half-to-even) is `round2` below.
-/

namespace TrendAnalyzer

/-- Round-half-to-even of a rational to an integer, as Python's `round`
behaves on exact values. -/
def rheZ (q : ℚ) : ℤ :=
  if q - ⌊q⌋ = 1/2 then (if ⌊q⌋ % 2 = 0 then ⌊q⌋ else ⌊q⌋ + 1) else round q

/-- Python's `round(q, 2)`: round to 2 decimal places, half to even. -/
def round2 (q : ℚ) : ℚ := (rheZ (q * 100) : ℚ) / 100

/-- Row of the `authors` table (`models.py`, class `Author`); only the
columns the verified functions touch. -/
structure AuthorRow where
  id : Nat
  username : String
  follower_count : Nat
  deriving Repr, DecidableEq

/-- Row of the `posts` table (`models.py`, class `Post`). -/
structure PostRow where
  id : Nat
  post_id : String
  author_id : Nat
  content : String
  deriving Repr, DecidableEq

/-- Row of the `engagement` table (`models.py`, class `Engagement`);
timestamps are abstracted to naturals. -/
structure EngagementRow where
  id : Nat
  post_id : Nat
  timestamp : Nat
  like_count : Nat
  comment_count : Nat
  repost_count : Nat
  deriving Repr, DecidableEq

/-- Row of the `trends` table (`models.py`, class `Trend`). -/
structure TrendRow where
  id : Nat
  title : String
  total_posts : Nat
  deriving Repr, DecidableEq

/-- Row of the `post_trends` link table (`models.py`, class `PostTrend`). -/
structure PostTrendRow where
  post_id : Nat
  trend_id : Nat
  deriving Repr, DecidableEq

/-- Row of the `trend_scores` table (`models.py`, class `TrendScore`). -/
structure TrendScoreRow where
  trend_id : Nat
  date_generated : Nat
  score : ℚ
  deriving Repr, DecidableEq

/-- The database state: one list per table plus a surrogate-id counter
standing for the autoincrement sequence. -/
structure DB where
  authors : List AuthorRow
  posts : List PostRow
  engagements : List EngagementRow
  trends : List TrendRow
  postTrends : List PostTrendRow
  trendScores : List TrendScoreRow
  nextId : Nat
  deriving Repr, DecidableEq

/-- The empty database. -/
def DB.empty : DB := ⟨[], [], [], [], [], [], 1⟩

/-- The join executed by `_calculate_single_trend_score`
(`trend_service.py` lines 265-278): `Post` joined to `PostTrend`
(filtered on the trend), inner-joined to `Author`, OUTER-joined to
`Engagement` on `Post.id == Engagement.post_id` with no restriction to
the latest snapshot, so a post with several snapshots contributes one
row per snapshot. -/
def trendJoinRows (db : DB) (tid : Nat) :
    List (PostRow × Option EngagementRow × AuthorRow) :=
  db.posts.flatMap fun p =>
    (db.postTrends.filter fun pt =>
        pt.post_id == p.id && pt.trend_id == tid).flatMap fun _ =>
      (db.authors.filter fun a => a.id == p.author_id).flatMap fun a =>
        match db.engagements.filter (fun e => e.post_id == p.id) with
        | [] => [(p, none, a)]
        | es => es.map fun e => (p, some e, a)

/-- Accumulated totals of the aggregation loop in
`_calculate_single_trend_score`. -/
structure Totals where
  likes : Nat
  comments : Nat
  reposts : Nat
  followers : Nat
  deriving Repr, DecidableEq

/-- One iteration of the aggregation loop (`trend_service.py` lines
286-292): engagement counts are added when the outer join produced a
snapshot, and the author's follower count is added for every row. -/
def scoreStep (acc : Totals) (row : PostRow × Option EngagementRow × AuthorRow) :
    Totals :=
  let acc1 := match row.2.1 with
    | some e => { acc with
        likes := acc.likes + e.like_count,
        comments := acc.comments + e.comment_count,
        reposts := acc.reposts + e.repost_count }
    | none => acc
  { acc1 with followers := acc1.followers + row.2.2.follower_count }

/-- The aggregation loop over all join rows. -/
def scoreTotals (rows : List (PostRow × Option EngagementRow × AuthorRow)) :
    Totals :=
  rows.foldl scoreStep ⟨0, 0, 0, 0⟩

/-- `_calculate_single_trend_score` (`trend_service.py` lines 251-317):
returns 0.0 when the join is empty, otherwise the weighted engagement
(likes + 1.1·comments + 1.2·reposts) over the follower total (floored at
1), scaled by 1000 and rounded to 2 decimals. -/
def calculateSingleTrendScore (db : DB) (tid : Nat) : ℚ :=
  let rows := trendJoinRows db tid
  if rows = [] then 0
  else
    let t := scoreTotals rows
    let tf : Nat := if t.followers = 0 then 1 else t.followers
    let weighted : ℚ := (t.likes : ℚ) + (t.comments : ℚ) * 1.1 + (t.reposts : ℚ) * 1.2
    round2 (weighted / (tf : ℚ) * 1000)

/-- The latest engagement snapshot of a post: the row with the maximal
capture timestamp among the rows of that post. -/
def latestSnapshot (db : DB) (pid : Nat) : Option EngagementRow :=
  (db.engagements.filter fun e => e.post_id == pid).foldl
    (fun acc e => match acc with
      | none => some e
      | some m => if m.timestamp < e.timestamp then some e else some m) none

/-- The posts linked to a trend through `PostTrend` rows. -/
def linkedPosts (db : DB) (tid : Nat) : List PostRow :=
  db.posts.filter fun p =>
    db.postTrends.any fun pt => pt.post_id == p.id && pt.trend_id == tid

/-- The scoring aggregation as the specification words it (§4.5): for
each linked post, only its latest snapshot is summed, and the author's
follower count is added once per linked post.  Stated for comparison
with `calculateSingleTrendScore`, which embeds the code. -/
def specLatestTrendScore (db : DB) (tid : Nat) : ℚ :=
  let ps := linkedPosts db tid
  if ps = [] then 0
  else
    let likes := (ps.map fun p =>
      match latestSnapshot db p.id with | some e => e.like_count | none => 0).sum
    let comments := (ps.map fun p =>
      match latestSnapshot db p.id with | some e => e.comment_count | none => 0).sum
    let reposts := (ps.map fun p =>
      match latestSnapshot db p.id with | some e => e.repost_count | none => 0).sum
    let followers := (ps.map fun p =>
      ((db.authors.filter fun a => a.id == p.author_id).map
        (fun a => a.follower_count)).sum).sum
    round2 (((likes : ℚ) + (comments : ℚ) * 1.1 + (reposts : ℚ) * 1.2) /
      (max followers 1 : ℚ) * 1000)

/-- Database for the scoring-pass witness: a trend with no linked posts
and two pre-existing score rows for another trend id. -/
def dbScoringExample : DB :=
  { authors := [],
    posts := [],
    engagements := [],
    trends := [⟨5, "T", 0⟩],
    postTrends := [],
    trendScores := [⟨7, 1, 5⟩, ⟨7, 3, 9⟩],
    nextId := 8 }

/-- Database exhibiting the double-count: one trend, one linked post
whose author has 1000 followers, and two engagement snapshots
(timestamps 1 and 2). -/
def dbTwoSnapshots : DB :=
  { authors := [⟨1, "alice", 1000⟩],
    posts := [⟨2, "x1", 1, "post one"⟩],
    engagements := [⟨3, 2, 1, 100, 0, 0⟩, ⟨4, 2, 2, 200, 0, 0⟩],
    trends := [⟨5, "T", 1⟩],
    postTrends := [⟨2, 5⟩],
    trendScores := [],
    nextId := 6 }

/-- Database for the score-formula witness: one trend, one linked post
with a single snapshot of 100 likes, 10 comments, 5 reposts, author with
1000 followers. -/
def dbFormulaExample : DB :=
  { authors := [⟨1, "alice", 1000⟩],
    posts := [⟨2, "x1", 1, "post one"⟩],
    engagements := [⟨3, 2, 1, 100, 10, 5⟩],
    trends := [⟨5, "T", 1⟩],
    postTrends := [⟨2, 5⟩],
    trendScores := [],
    nextId := 6 }

/-- Drop leading and trailing whitespace from a character list. -/
def stripChars (s : List Char) : List Char :=
  ((s.dropWhile Char.isWhitespace).reverse.dropWhile Char.isWhitespace).reverse

/-- Python's `str.strip()` on a string, executably. -/
def pyStrip (s : String) : String := ⟨stripChars s.data⟩

/-- The link-creation loop of `_create_trend_basic` (`trend_service.py`
lines 172-183): for each post of the cluster, a `PostTrend` row is added
only when no row with that exact (post, trend) pair is present (the
session autoflushes, so the check also sees rows added earlier in the
same loop). -/
def createPostTrendLinks (tid : Nat) (links : List PostTrendRow)
    (cluster : List Nat) : List PostTrendRow :=
  cluster.foldl
    (fun ls pid =>
      if ls.any fun pt => pt.post_id == pid && pt.trend_id == tid then ls
      else ls ++ [⟨pid, tid⟩]) links

/-- `_create_trend_basic` (`trend_service.py` lines 135-193): strip the
candidate title, bail out on an empty one, reuse the first existing
trend with exactly that title (updating its `total_posts` to the cluster
size) or create a fresh row, then add the missing `PostTrend` links.
The cluster is given by its posts' surrogate ids. -/
def createTrendBasic (titleRaw : String) (cluster : List Nat) (db : DB) :
    DB × Option Nat :=
  if pyStrip titleRaw = "" then (db, none)
  else
    match db.trends.find? (fun t => t.title == pyStrip titleRaw) with
    | some t =>
      ({ db with
         trends := db.trends.map fun x =>
           if x.id == t.id then { x with total_posts := cluster.length } else x,
         postTrends := createPostTrendLinks t.id db.postTrends cluster },
        some t.id)
    | none =>
      ({ db with
         trends := db.trends ++ [⟨db.nextId, pyStrip titleRaw, cluster.length⟩],
         nextId := db.nextId + 1,
         postTrends := createPostTrendLinks db.nextId db.postTrends cluster },
        some db.nextId)

/-- Author fields of a raw API post (`background_tasks.py`; the columns
the verified functions do not read are elided). -/
structure RawAuthor where
  username : String
  follower_count : Nat
  deriving Repr, DecidableEq

/-- Metrics dict of a raw API post. -/
structure RawMetrics where
  like_count : Nat
  reply_count : Nat
  retweet_count : Nat
  quote_count : Nat
  deriving Repr, DecidableEq

/-- A raw post as returned by the source API; the record form models a
dict that passed the required-fields validation of
`_store_posts_and_authors`. -/
structure RawPost where
  post_id : String
  content : String
  created_at : Nat
  author : RawAuthor
  metrics : RawMetrics
  deriving Repr, DecidableEq

/-- `_update_post_engagement` (`background_tasks.py` lines 254-271):
append a fresh engagement snapshot for an existing post; reposts are
retweets plus quotes. -/
def updatePostEngagement (db : DB) (p : PostRow) (m : RawMetrics) (now : Nat) : DB :=
  { db with
    engagements := db.engagements ++
      [⟨db.nextId, p.id, now, m.like_count, m.reply_count,
        m.retweet_count + m.quote_count⟩],
    nextId := db.nextId + 1 }

/-- `_get_or_create_author` (`background_tasks.py` lines 212-252): bail
out on a missing username, update the follower count of an existing
author, or insert a new author row. -/
def getOrCreateAuthor (db : DB) (a : RawAuthor) : DB × Option Nat :=
  if a.username = "" then (db, none)
  else
    match db.authors.find? (fun r => r.username == a.username) with
    | some r =>
      ({ db with
         authors := db.authors.map fun x =>
           if x.id == r.id then { x with follower_count := a.follower_count } else x },
        some r.id)
    | none =>
      ({ db with
         authors := db.authors ++ [⟨db.nextId, a.username, a.follower_count⟩],
         nextId := db.nextId + 1 },
        some db.nextId)

/-- The per-post body of the ingestion loop in `_store_posts_and_authors`
(`background_tasks.py` lines 139-210): an already-known external
`post_id` only gets a fresh engagement snapshot; a new one gets an
author (created or updated), a post row and its first snapshot. -/
def storeOnePost (now : Nat) (db : DB) (pd : RawPost) : DB :=
  match db.posts.find? (fun p => p.post_id == pd.post_id) with
  | some p => updatePostEngagement db p pd.metrics now
  | none =>
    match getOrCreateAuthor db pd.author with
    | (db1, none) => db1
    | (db1, some aid) =>
      let pid := db1.nextId
      let db2 := { db1 with
        posts := db1.posts ++ [(⟨pid, pd.post_id, aid, pd.content⟩ : PostRow)],
        nextId := db1.nextId + 1 }
      { db2 with
        engagements := db2.engagements ++
          [(⟨db2.nextId, pid, now, pd.metrics.like_count, pd.metrics.reply_count,
            pd.metrics.retweet_count + pd.metrics.quote_count⟩ : EngagementRow)],
        nextId := db2.nextId + 1 }

/-- `_store_posts_and_authors`: the ingestion loop over a batch. -/
def storePostsAndAuthors (now : Nat) (db : DB) (pds : List RawPost) : DB :=
  pds.foldl (storeOnePost now) db

/-- `calculate_trend_scores` (`trend_service.py` lines 70-96): one pass
scores every trend against the current tables and appends one
`TrendScore` row per trend; nothing else is touched.  The per-row
`utcnow()` timestamps of one pass are modelled by a single `now`. -/
def calculateTrendScores (db : DB) (now : Nat) : DB :=
  { db with
    trendScores := db.trendScores ++
      db.trends.map fun t =>
        (⟨t.id, now, calculateSingleTrendScore db t.id⟩ : TrendScoreRow) }

/-- One step of selecting the row with the maximal `date_generated`. -/
def pickLatest (acc : Option TrendScoreRow) (s : TrendScoreRow) :
    Option TrendScoreRow :=
  match acc with
  | none => some s
  | some m => if m.date_generated < s.date_generated then some s else some m

/-- `Trend.get_latest_score` (`models.py` lines 75-78): the score of the
trend's `TrendScore` row with the maximal `date_generated` (the fold
keeps the first-seen row among equal timestamps, matching an arbitrary
tie-break of `ORDER BY ... DESC LIMIT 1`), or 0 with no rows. -/
def getLatestScore (db : DB) (tid : Nat) : ℚ :=
  match (db.trendScores.filter fun s => s.trend_id == tid).foldl pickLatest none with
  | some r => r.score
  | none => 0

/-- The cluster-count heuristic of `_cluster_posts` (`trend_service.py`
line 116): `min(8, max(2, n // 3))`. -/
def numClusters (n : Nat) : Nat := min 8 (max 2 (n / 3))

/-- The grouping loop of `_cluster_posts` (lines 123-126): `k` buckets,
post `i` appended to bucket `labels[i]`. -/
def groupClusters {α : Type} (k : Nat) (labels : List Nat) (posts : List α) :
    List (List α) :=
  (List.range k).map fun c =>
    ((labels.zip posts).filter fun lp => lp.1 == c).map Prod.snd

/-- `_cluster_posts` (`trend_service.py` lines 97-133): fewer than 3
posts come back as a single cluster; otherwise the posts are bucketed by
the k-means labels (one label per post, in `[0, k)` — the labels are a
parameter here, since the numeric fit is outside the embedding) and
empty buckets are dropped. -/
def clusterPosts {α : Type} (posts : List α) (labels : List Nat) : List (List α) :=
  if posts.length < 3 then [posts]
  else (groupClusters (numClusters posts.length) labels posts).filter
    fun c => !c.isEmpty

/-- The per-cluster body of the trend loop in `analyze_and_create_trends`
(`trend_service.py` lines 49-60): clusters of fewer than 2 posts are
skipped outright; otherwise the naming collaborator (`identify`, a
parameter: it is an external LLM call) proposes titles and each title is
resolved by `createTrendBasic`. -/
def processCluster (identify : List String → List String) (db : DB)
    (cluster : List PostRow) : DB × List Nat :=
  if cluster.length < 2 then (db, [])
  else
    (identify (cluster.map fun p => p.content)).foldl
      (fun acc title =>
        match createTrendBasic title (cluster.map fun p => p.id) acc.1 with
        | (db1, some tid) => (db1, acc.2 ++ [tid])
        | (db1, none) => (db1, acc.2))
      (db, [])

/-- `analyze_and_create_trends` (`trend_service.py` lines 20-68): an
empty batch or an empty/failed embeddings result (the embedding service
returns the empty list on any failure) aborts before clustering with no
writes; otherwise the clusters are resolved in order. -/
def analyzeAndCreateTrends (embeddings : List (List ℚ)) (labels : List Nat)
    (identify : List String → List String) (posts : List PostRow) (db : DB) :
    DB × List Nat :=
  if posts = [] then (db, [])
  else if embeddings = [] then (db, [])
  else
    (clusterPosts posts labels).foldl
      (fun acc cluster =>
        let r := processCluster identify acc.1 cluster
        (r.1, acc.2 ++ r.2))
      (db, [])

/-- Two clusters resolved under the same title "T" against the empty
database: first `[1, 2, 3]`, then `[4, 5]`. -/
def dbMergeExample : DB :=
  (createTrendBasic "T" [4, 5] (createTrendBasic "T" [1, 2, 3] DB.empty).1).1

/-- A raw post for the re-ingestion witness. -/
def rawPostExample : RawPost :=
  { post_id := "x9", content := "hello", created_at := 0,
    author := { username := "alice", follower_count := 10 },
    metrics := { like_count := 1, reply_count := 2, retweet_count := 3, quote_count := 4 } }

/-- Surrogate ids in the tables stay below the autoincrement counter;
holds for every state reachable from `DB.empty` and mirrors how the real
database hands out primary keys. -/
def FreshIds (db : DB) : Prop :=
  (∀ p ∈ db.posts, p.id < db.nextId) ∧
  (∀ t ∈ db.trends, t.id < db.nextId) ∧
  (∀ a ∈ db.authors, a.id < db.nextId) ∧
  (∀ e ∈ db.engagements, e.post_id < db.nextId)

instance (db : DB) : Decidable (FreshIds db) := by
  unfold FreshIds; infer_instance

end TrendAnalyzer

namespace TrendAnalyzer

/-- Claim C2: with a non-empty join the score is exactly
`round2 ((likes + 1.1*comments + 1.2*reposts) / max(followers, 1) * 1000)`
(so a zero follower total divides by 1 instead of raising), and on
totals 100/10/5/1000 the formula yields exactly 117. -/
theorem C2_score_formula :
    (∀ (db : DB) (tid : Nat), trendJoinRows db tid ≠ [] →
      calculateSingleTrendScore db tid =
        round2 ((((scoreTotals (trendJoinRows db tid)).likes : ℚ) +
          ((scoreTotals (trendJoinRows db tid)).comments : ℚ) * 1.1 +
          ((scoreTotals (trendJoinRows db tid)).reposts : ℚ) * 1.2) /
          (max (scoreTotals (trendJoinRows db tid)).followers 1 : ℚ) * 1000)) ∧
    round2 ((((100 : ℕ) : ℚ) + ((10 : ℕ) : ℚ) * 1.1 + ((5 : ℕ) : ℚ) * 1.2) /
      (max (1000 : ℕ) 1 : ℚ) * 1000) = 117 := by
  constructor
  · intro db tid h
    rw [calculateSingleTrendScore]
    simp only [if_neg h]
    rcases Nat.eq_zero_or_pos (scoreTotals (trendJoinRows db tid)).followers with h0 | hpos
    · rw [h0]
      norm_num
    · rw [if_neg (Nat.pos_iff_ne_zero.mp hpos),
        max_eq_left (show (1 : ℚ) ≤ _ by exact_mod_cast hpos)]
  · norm_num [round2, rheZ, round_eq]

/-- Claim C2 witness: the formula theorem applied to a concrete database
whose single linked post has 100 likes, 10 comments, 5 reposts and an
author with 1000 followers; the score evaluates to 117. -/
theorem C2_score_formula_witness :
    trendJoinRows dbFormulaExample 5 ≠ [] ∧
    calculateSingleTrendScore dbFormulaExample 5 = 117 := by
  have h : trendJoinRows dbFormulaExample 5 ≠ [] := by decide
  refine ⟨h, ?_⟩
  have h2 := C2_score_formula.1 dbFormulaExample 5 h
  have h3 : scoreTotals (trendJoinRows dbFormulaExample 5) = ⟨100, 10, 5, 1000⟩ := by
    decide
  rw [h2, h3]
  exact C2_score_formula.2

/-- Claim C1: contrary to the claim, the scoring query outer-joins every
engagement snapshot of each linked post (no latest-only restriction), so
with two snapshots the code sums both and counts the author's followers
twice (score 150), while the latest-snapshot aggregation the claim and
the specification describe yields 200. -/
theorem C1_all_snapshots_summed :
    calculateSingleTrendScore dbTwoSnapshots 5 = 150 ∧
    specLatestTrendScore dbTwoSnapshots 5 = 200 ∧
    scoreTotals (trendJoinRows dbTwoSnapshots 5) = ⟨300, 0, 0, 2000⟩ := by
  refine ⟨?_, ?_, by decide⟩
  · have h3 : scoreTotals (trendJoinRows dbTwoSnapshots 5) = ⟨300, 0, 0, 2000⟩ := by
      decide
    rw [calculateSingleTrendScore]
    simp only [if_neg (show trendJoinRows dbTwoSnapshots 5 ≠ [] by decide), h3]
    norm_num [round2, rheZ, round_eq]
  · rw [specLatestTrendScore]
    simp only [if_neg (show linkedPosts dbTwoSnapshots 5 ≠ [] by decide)]
    have hl : linkedPosts dbTwoSnapshots 5 = [⟨2, "x1", 1, "post one"⟩] := by decide
    rw [hl]
    have hs : latestSnapshot dbTwoSnapshots 2 = some ⟨4, 2, 2, 200, 0, 0⟩ := by decide
    simp only [List.map, hs, List.sum_cons, List.sum_nil]
    norm_num [dbTwoSnapshots, round2, rheZ, round_eq]

/-- Claim C6 counterexample: on a batch of 0 posts the Clusterer
(`_cluster_posts`) does not return "no clusters" — the `n < 3` branch
returns `[posts]`, a list containing one empty cluster. -/
theorem C6_counterexample :
    clusterPosts ([] : List Nat) [] = [[]] ∧ clusterPosts ([] : List Nat) [] ≠ [] := by
  constructor <;> decide

/-- Claim C6 amended: on a 2-post batch the Clusterer returns exactly one
cluster containing both posts; on a 0-post batch it returns a single
empty cluster (the pipeline itself never reaches it on an empty batch:
`analyze_and_create_trends` returns the empty list first, writing
nothing). -/
theorem C6_amended_degenerate {α : Type} (p q : α) (labels labels0 : List Nat)
    (embeddings : List (List ℚ)) (identify : List String → List String) (db : DB) :
    clusterPosts [p, q] labels = [[p, q]] ∧
    clusterPosts ([] : List α) labels0 = [[]] ∧
    analyzeAndCreateTrends embeddings labels identify [] db = (db, []) := by
  refine ⟨?_, ?_, ?_⟩
  · simp [clusterPosts]
  · simp [clusterPosts]
  · simp [analyzeAndCreateTrends]

/-- Claim C8: an empty (or failed, which the embedding service reports as
empty) embeddings result makes `analyze_and_create_trends` return the
empty trend list with the database untouched — no partial writes. -/
theorem C8_empty_embeddings_abort (labels : List Nat)
    (identify : List String → List String) (posts : List PostRow) (db : DB) :
    analyzeAndCreateTrends [] labels identify posts db = (db, []) := by
  by_cases h : posts = [] <;> simp [analyzeAndCreateTrends, h]

/-- Claim C9: a cluster of fewer than 2 posts is skipped before naming
and resolution — the per-cluster step leaves the database unchanged and
creates no trend. -/
theorem C9_singleton_cluster_skipped (identify : List String → List String)
    (db : DB) (cluster : List PostRow) (h : cluster.length < 2) :
    processCluster identify db cluster = (db, []) := by
  simp [processCluster, h]

/-- Claim C9 witness: the skip theorem applied to a singleton cluster,
with a namer that would otherwise propose a title. -/
theorem C9_singleton_cluster_skipped_witness :
    ([(⟨1, "x1", 1, "post one"⟩ : PostRow)] : List PostRow).length < 2 ∧
    processCluster (fun _ => ["T"]) DB.empty [⟨1, "x1", 1, "post one"⟩] =
      (DB.empty, []) :=
  ⟨by decide, C9_singleton_cluster_skipped (fun _ => ["T"]) DB.empty
    [⟨1, "x1", 1, "post one"⟩] (by decide)⟩

/-- Prepending an element to the bucket of a label that occurs exactly
once among the bucket indices conses that element onto the flattened
buckets, up to permutation. -/
theorem flatten_map_ite_perm {α : Type} (g : Nat → List α) (x : α) (l : Nat) :
    ∀ cs : List Nat, cs.count l = 1 →
      List.Perm ((cs.map fun c => if l = c then x :: g c else g c).flatten)
        (x :: (cs.map g).flatten) := by
  intro cs
  induction cs with
  | nil => intro h; simp at h
  | cons c cs ih =>
    intro h
    by_cases hc : l = c
    · subst hc
      have h0 : cs.count l = 0 := by
        rw [List.count_cons] at h
        simpa using h
      have hnotin : l ∉ cs := List.count_eq_zero.mp h0
      have hmap : (cs.map fun c => if l = c then x :: g c else g c) = cs.map g := by
        apply List.map_eq_map_iff.mpr
        intro a ha
        have hne : l ≠ a := fun e => hnotin (e ▸ ha)
        simp [hne]
      simp [hmap]
    · have h1 : cs.count l = 1 := by
        rw [List.count_cons] at h
        have hb : (c == l) = false := beq_eq_false_iff_ne.mpr (Ne.symm hc)
        rw [hb] at h
        simpa using h
      have hrec := ih h1
      simp only [List.map_cons, List.flatten_cons, if_neg hc]
      exact (List.Perm.append_left (g c) hrec).trans List.perm_middle

/-- With one in-range label per post, flattening the buckets of the
grouping loop recovers the batch up to permutation. -/
theorem flatten_groupClusters_perm {α : Type} (k : Nat) :
    ∀ (labels : List Nat) (posts : List α), labels.length = posts.length →
      (∀ l ∈ labels, l < k) →
      List.Perm (groupClusters k labels posts).flatten posts := by
  intro labels
  induction labels with
  | nil =>
    intro posts hlen _
    have hp : posts = [] := by
      cases posts with
      | nil => rfl
      | cons a t => simp at hlen
    subst hp
    have hflat : (groupClusters k [] ([] : List α)).flatten = [] := by
      simp [groupClusters]
    rw [hflat]
  | cons l ls ih =>
    intro posts hlen hlab
    cases posts with
    | nil => simp at hlen
    | cons p ps =>
      have hlen' : ls.length = ps.length := by simpa using hlen
      have hl : l < k := hlab l (by simp)
      have hlab' : ∀ x ∈ ls, x < k := fun x hx => hlab x (List.mem_cons_of_mem _ hx)
      have hstep : groupClusters k (l :: ls) (p :: ps) =
          (List.range k).map fun c =>
            if l = c then p :: ((ls.zip ps).filter fun lp => lp.1 == c).map Prod.snd
            else ((ls.zip ps).filter fun lp => lp.1 == c).map Prod.snd := by
        unfold groupClusters
        apply List.map_eq_map_iff.mpr
        intro c _
        by_cases hlc : l = c
        · subst hlc
          simp [List.zip_cons_cons, List.filter_cons]
        · simp [List.zip_cons_cons, List.filter_cons, hlc]
      rw [hstep]
      have hcount : (List.range k).count l = 1 :=
        List.count_eq_one_of_mem (List.nodup_range _) (List.mem_range.mpr hl)
      have hperm := flatten_map_ite_perm
        (fun c => ((ls.zip ps).filter fun lp => lp.1 == c).map Prod.snd) p l
        (List.range k) hcount
      exact hperm.trans ((ih ps hlen' hlab').cons p)

/-- Claim C7: for a batch of at least 3 posts the Clusterer uses
`k = min(8, max(2, n // 3))` buckets (a value clamped to `[2, 8]`),
the returned clusters partition the batch (their concatenation is a
permutation of it), every returned cluster is non-empty, and the number
of returned clusters lies between 1 and `k`. -/
theorem C7_cluster_count_and_partition {α : Type} (posts : List α) (labels : List Nat)
    (h3 : 3 ≤ posts.length) (hlen : labels.length = posts.length)
    (hlab : ∀ l ∈ labels, l < numClusters posts.length) :
    numClusters posts.length = min 8 (max 2 (posts.length / 3)) ∧
    2 ≤ numClusters posts.length ∧ numClusters posts.length ≤ 8 ∧
    List.Perm (clusterPosts posts labels).flatten posts ∧
    (∀ c ∈ clusterPosts posts labels, c ≠ []) ∧
    1 ≤ (clusterPosts posts labels).length ∧
    (clusterPosts posts labels).length ≤ numClusters posts.length := by
  have hne : ¬ posts.length < 3 := by omega
  have hcp : clusterPosts posts labels =
      (groupClusters (numClusters posts.length) labels posts).filter
        fun c => !c.isEmpty := by
    simp [clusterPosts, hne]
  have hperm0 := flatten_groupClusters_perm (numClusters posts.length) labels posts
    hlen hlab
  have hflat : (clusterPosts posts labels).flatten =
      (groupClusters (numClusters posts.length) labels posts).flatten := by
    rw [hcp]
    exact List.flatten_filter_not_isEmpty
  refine ⟨rfl, ?_, ?_, ?_, ?_, ?_, ?_⟩
  · unfold numClusters; omega
  · unfold numClusters; omega
  · rw [hflat]; exact hperm0
  · intro c hc
    rw [hcp] at hc
    have hmem := List.of_mem_filter hc
    simpa using hmem
  · by_contra h0
    push_neg at h0
    have hnil : clusterPosts posts labels = [] := by
      cases hcl : clusterPosts posts labels with
      | nil => rfl
      | cons a t => rw [hcl] at h0; simp at h0
    have hfl : (clusterPosts posts labels).flatten = [] := by rw [hnil]; rfl
    rw [hflat] at hfl
    have hlen0 := hperm0.length_eq
    rw [hfl] at hlen0
    simp at hlen0
    omega
  · rw [hcp]
    calc ((groupClusters (numClusters posts.length) labels posts).filter
          fun c => !c.isEmpty).length
        ≤ (groupClusters (numClusters posts.length) labels posts).length :=
          List.length_filter_le _ _
    _ = numClusters posts.length := by
          unfold groupClusters
          rw [List.length_map, List.length_range]

/-- Claim C7 witness: 3 posts with labels `[0, 1, 0]` and `k = 2` give
two non-empty clusters. -/
theorem C7_cluster_count_and_partition_witness :
    (3 ≤ ([10, 20, 30] : List Nat).length) ∧
    ([0, 1, 0] : List Nat).length = ([10, 20, 30] : List Nat).length ∧
    (∀ l ∈ ([0, 1, 0] : List Nat), l < numClusters 3) ∧
    List.Perm (clusterPosts ([10, 20, 30] : List Nat) [0, 1, 0]).flatten [10, 20, 30] ∧
    (∀ c ∈ clusterPosts ([10, 20, 30] : List Nat) [0, 1, 0], c ≠ []) ∧
    1 ≤ (clusterPosts ([10, 20, 30] : List Nat) [0, 1, 0]).length ∧
    (clusterPosts ([10, 20, 30] : List Nat) [0, 1, 0]).length ≤ numClusters 3 := by
  have h := C7_cluster_count_and_partition ([10, 20, 30] : List Nat) [0, 1, 0]
    (by decide) (by decide) (by decide)
  exact ⟨by decide, by decide, by decide, h.2.2.2.1, h.2.2.2.2.1, h.2.2.2.2.2.1,
    h.2.2.2.2.2.2⟩

/-- Folding `pickLatest` from a seed row yields a row of the list (or the
seed) whose timestamp dominates the seed and every list element. -/
theorem foldl_pickLatest_spec :
    ∀ (l : List TrendScoreRow) (m : TrendScoreRow),
      ∃ r, l.foldl pickLatest (some m) = some r ∧ (r = m ∨ r ∈ l) ∧
        m.date_generated ≤ r.date_generated ∧
        ∀ x ∈ l, x.date_generated ≤ r.date_generated := by
  intro l
  induction l with
  | nil => intro m; exact ⟨m, rfl, Or.inl rfl, le_refl _, by simp⟩
  | cons s l ih =>
    intro m
    by_cases hlt : m.date_generated < s.date_generated
    · obtain ⟨r, heq, hmem, hge, hall⟩ := ih s
      refine ⟨r, ?_, ?_, le_of_lt (lt_of_lt_of_le hlt hge), ?_⟩
      · simpa [pickLatest, hlt] using heq
      · rcases hmem with h | h
        · exact Or.inr (h ▸ List.mem_cons_self s l)
        · exact Or.inr (List.mem_cons_of_mem _ h)
      · intro x hx
        rcases List.mem_cons.mp hx with h | h
        · exact h ▸ hge
        · exact hall x h
    · obtain ⟨r, heq, hmem, hge, hall⟩ := ih m
      refine ⟨r, ?_, ?_, hge, ?_⟩
      · simpa [pickLatest, hlt] using heq
      · rcases hmem with h | h
        · exact Or.inl h
        · exact Or.inr (List.mem_cons_of_mem _ h)
      · intro x hx
        rcases List.mem_cons.mp hx with h | h
        · exact h ▸ le_trans (le_of_not_lt hlt) hge
        · exact hall x h

/-- A trend with no `PostTrend` rows has an empty scoring join. -/
theorem trendJoinRows_eq_nil_of_no_links (db : DB) (tid : Nat)
    (h : db.postTrends.filter (fun pt => pt.trend_id == tid) = []) :
    trendJoinRows db tid = [] := by
  unfold trendJoinRows
  apply List.flatMap_eq_nil_iff.mpr
  intro p _
  have hfil : (db.postTrends.filter fun pt =>
      pt.post_id == p.id && pt.trend_id == tid) = [] := by
    apply List.filter_eq_nil_iff.mpr
    intro pt hpt
    intro hcontra
    have h2 : (pt.trend_id == tid) = true := by
      simp only [Bool.and_eq_true] at hcontra
      exact hcontra.2
    have h3 := List.filter_eq_nil_iff.mp h pt hpt
    exact h3 h2
  rw [hfil]
  rfl

/-- Claim C5: one scoring pass appends precisely one new `TrendScore` row
per existing trend (a trend without linked posts getting score 0), leaves
the previous score rows and every other table untouched, and
`getLatestScore` reads the score of the maximal-timestamp row of a trend,
or 0 when the trend has no rows. -/
theorem C5_scores_append_only (db : DB) (now : Nat) :
    (calculateTrendScores db now).trendScores =
      db.trendScores ++ db.trends.map (fun t =>
        (⟨t.id, now, calculateSingleTrendScore db t.id⟩ : TrendScoreRow)) ∧
    (calculateTrendScores db now).trendScores.length =
      db.trendScores.length + db.trends.length ∧
    (calculateTrendScores db now).trends = db.trends ∧
    (calculateTrendScores db now).posts = db.posts ∧
    (calculateTrendScores db now).postTrends = db.postTrends ∧
    (calculateTrendScores db now).engagements = db.engagements ∧
    (∀ t ∈ db.trends, db.postTrends.filter (fun pt => pt.trend_id == t.id) = [] →
      (⟨t.id, now, 0⟩ : TrendScoreRow) ∈ (calculateTrendScores db now).trendScores) ∧
    (∀ tid, (db.trendScores.filter fun s => s.trend_id == tid) = [] →
      getLatestScore db tid = 0) ∧
    (∀ tid, (db.trendScores.filter fun s => s.trend_id == tid) ≠ [] →
      ∃ r ∈ db.trendScores.filter fun s => s.trend_id == tid,
        getLatestScore db tid = r.score ∧
        ∀ x ∈ db.trendScores.filter fun s => s.trend_id == tid,
          x.date_generated ≤ r.date_generated) := by
  refine ⟨rfl, by simp [calculateTrendScores], rfl, rfl, rfl, rfl, ?_, ?_, ?_⟩
  · intro t ht hnolinks
    have hscore : calculateSingleTrendScore db t.id = 0 := by
      unfold calculateSingleTrendScore
      rw [trendJoinRows_eq_nil_of_no_links db t.id hnolinks]
      rfl
    show _ ∈ db.trendScores ++ _
    refine List.mem_append_right _ ?_
    refine List.mem_map.mpr ⟨t, ht, ?_⟩
    rw [hscore]
  · intro tid h
    unfold getLatestScore
    rw [h]
    rfl
  · intro tid h
    cases hrows : db.trendScores.filter fun s => s.trend_id == tid with
    | nil => exact absurd hrows h
    | cons s rest =>
      obtain ⟨r, heq, hmem, hge, hall⟩ := foldl_pickLatest_spec rest s
      refine ⟨r, ?_, ?_, ?_⟩
      · rcases hmem with h2 | h2
        · exact h2 ▸ List.mem_cons_self s rest
        · exact List.mem_cons_of_mem _ h2
      · unfold getLatestScore
        rw [hrows]
        show (match (s :: rest).foldl pickLatest none with
          | some r => r.score | none => 0) = r.score
        have hstep : (s :: rest).foldl pickLatest none =
            rest.foldl pickLatest (some s) := rfl
        rw [hstep, heq]
      · intro x hx
        rcases List.mem_cons.mp hx with h2 | h2
        · exact h2 ▸ hge
        · exact hall x h2

/-- Claim C5 witness: on a database with one post-less trend and two
prior score rows for trend id 7, the pass appends the zero-score row and
`getLatestScore` returns the score of the timestamp-3 row. -/
theorem C5_scores_append_only_witness :
    (⟨5, "T", 0⟩ : TrendRow) ∈ dbScoringExample.trends ∧
    dbScoringExample.postTrends.filter (fun pt => pt.trend_id == (5 : Nat)) = [] ∧
    (⟨5, 2, 0⟩ : TrendScoreRow) ∈ (calculateTrendScores dbScoringExample 2).trendScores ∧
    (dbScoringExample.trendScores.filter fun s => s.trend_id == (7 : Nat)) ≠ [] ∧
    ∃ r ∈ dbScoringExample.trendScores.filter fun s => s.trend_id == (7 : Nat),
      getLatestScore dbScoringExample 7 = r.score ∧
      ∀ x ∈ dbScoringExample.trendScores.filter fun s => s.trend_id == (7 : Nat),
        x.date_generated ≤ r.date_generated := by
  have h := C5_scores_append_only dbScoringExample 2
  have hmem : (⟨5, "T", 0⟩ : TrendRow) ∈ dbScoringExample.trends := by
    show _ ∈ [(⟨5, "T", 0⟩ : TrendRow)]
    exact List.mem_singleton.mpr rfl
  have hne : (dbScoringExample.trendScores.filter
      fun s => s.trend_id == (7 : Nat)) ≠ [] := by
    show ((⟨7, 1, 5⟩ : TrendScoreRow) :: _) ≠ []
    exact List.cons_ne_nil _ _
  exact ⟨hmem, rfl, h.2.2.2.2.2.2.1 ⟨5, "T", 0⟩ hmem rfl, hne,
    h.2.2.2.2.2.2.2.2 7 hne⟩

/-- `_get_or_create_author` only touches the authors table (and possibly
the id counter, monotonically). -/
theorem getOrCreateAuthor_tables (db : DB) (a : RawAuthor) :
    (getOrCreateAuthor db a).1.posts = db.posts ∧
    (getOrCreateAuthor db a).1.engagements = db.engagements ∧
    db.nextId ≤ (getOrCreateAuthor db a).1.nextId := by
  unfold getOrCreateAuthor
  by_cases h : a.username = ""
  · simp [h]
  · simp only [if_neg h]
    cases db.authors.find? (fun r => r.username == a.username) with
    | none => exact ⟨rfl, rfl, Nat.le_succ _⟩
    | some r => exact ⟨rfl, rfl, le_refl _⟩

/-- With a non-empty username, `_get_or_create_author` returns an id. -/
theorem getOrCreateAuthor_some (db : DB) (a : RawAuthor) (h : a.username ≠ "") :
    ∃ aid, getOrCreateAuthor db a = ((getOrCreateAuthor db a).1, some aid) := by
  unfold getOrCreateAuthor
  simp only [if_neg h]
  cases db.authors.find? (fun r => r.username == a.username) with
  | none => exact ⟨db.nextId, rfl⟩
  | some r => exact ⟨r.id, rfl⟩

/-- Claim C4: ingesting the same raw post (same external `post_id`)
twice into a database that does not yet hold it yields exactly one Post
row for that id (the batch adds exactly one row), adds exactly two
engagement snapshots, and those two snapshots are the only engagement
rows of the new post. -/
theorem C4_idempotent_reingestion (db : DB) (pd : RawPost) (now1 now2 : Nat)
    (hfresh : FreshIds db)
    (huser : pd.author.username ≠ "")
    (hnew : ∀ p ∈ db.posts, p.post_id ≠ pd.post_id) :
    ((storePostsAndAuthors now2 (storePostsAndAuthors now1 db [pd]) [pd]).posts.filter
        (fun p => p.post_id == pd.post_id)).length = 1 ∧
    (storePostsAndAuthors now2 (storePostsAndAuthors now1 db [pd]) [pd]).posts.length =
      db.posts.length + 1 ∧
    (storePostsAndAuthors now2 (storePostsAndAuthors now1 db [pd]) [pd]).engagements.length =
      db.engagements.length + 2 ∧
    ∃ pid,
      ((storePostsAndAuthors now2 (storePostsAndAuthors now1 db [pd]) [pd]).posts.filter
        (fun p => p.post_id == pd.post_id)).map (fun p => p.id) = [pid] ∧
      ((storePostsAndAuthors now2 (storePostsAndAuthors now1 db [pd]) [pd]).engagements.filter
        (fun e => e.post_id == pid)).length = 2 := by
  obtain ⟨aid, hga⟩ := getOrCreateAuthor_some db pd.author huser
  obtain ⟨hposts1, heng1, hnext1⟩ := getOrCreateAuthor_tables db pd.author
  set db1 := (getOrCreateAuthor db pd.author).1 with hdb1
  have hfind1 : db.posts.find? (fun p => p.post_id == pd.post_id) = none := by
    apply List.find?_eq_none.mpr
    intro p hp
    simpa using hnew p hp
  have hstore1 : storePostsAndAuthors now1 db [pd] =
      { db1 with
        posts := db1.posts ++ [⟨db1.nextId, pd.post_id, aid, pd.content⟩],
        engagements := db1.engagements ++
          [⟨db1.nextId + 1, db1.nextId, now1, pd.metrics.like_count,
            pd.metrics.reply_count,
            pd.metrics.retweet_count + pd.metrics.quote_count⟩],
        nextId := db1.nextId + 2 } := by
    show storeOnePost now1 db pd = _
    unfold storeOnePost
    rw [hfind1, hga]
  have hfind1' : db1.posts.find? (fun p => p.post_id == pd.post_id) = none := by
    rw [hposts1]; exact hfind1
  have hfind2 : (storePostsAndAuthors now1 db [pd]).posts.find?
      (fun p => p.post_id == pd.post_id) =
      some ⟨db1.nextId, pd.post_id, aid, pd.content⟩ := by
    rw [hstore1]
    show (db1.posts ++ [(⟨db1.nextId, pd.post_id, aid, pd.content⟩ : PostRow)]).find? _ = _
    rw [List.find?_append, hfind1']
    simp
  have hstore2 : storePostsAndAuthors now2 (storePostsAndAuthors now1 db [pd]) [pd] =
      { db1 with
        posts := db1.posts ++ [⟨db1.nextId, pd.post_id, aid, pd.content⟩],
        engagements := (db1.engagements ++
          [⟨db1.nextId + 1, db1.nextId, now1, pd.metrics.like_count,
            pd.metrics.reply_count,
            pd.metrics.retweet_count + pd.metrics.quote_count⟩]) ++
          [⟨db1.nextId + 2, db1.nextId, now2, pd.metrics.like_count,
            pd.metrics.reply_count,
            pd.metrics.retweet_count + pd.metrics.quote_count⟩],
        nextId := db1.nextId + 3 } := by
    show storeOnePost now2 (storePostsAndAuthors now1 db [pd]) pd = _
    unfold storeOnePost
    rw [hfind2]
    unfold updatePostEngagement
    rw [hstore1]
  have hfilterPosts : ((storePostsAndAuthors now2 (storePostsAndAuthors now1 db [pd])
      [pd]).posts.filter (fun p => p.post_id == pd.post_id)) =
      [⟨db1.nextId, pd.post_id, aid, pd.content⟩] := by
    rw [hstore2]
    show (db1.posts ++ [(⟨db1.nextId, pd.post_id, aid, pd.content⟩ : PostRow)]).filter _ = _
    rw [List.filter_append]
    have hnil : db1.posts.filter (fun p => p.post_id == pd.post_id) = [] := by
      apply List.filter_eq_nil_iff.mpr
      intro p hp
      rw [hposts1] at hp
      simpa using hnew p hp
    rw [hnil]
    simp
  have hengOld : ∀ e ∈ db1.engagements, ¬(e.post_id == db1.nextId) = true := by
    intro e he
    rw [heng1] at he
    have hlt : e.post_id < db.nextId := hfresh.2.2.2 e he
    have : e.post_id ≠ db1.nextId := by omega
    simpa using this
  refine ⟨?_, ?_, ?_, db1.nextId, ?_, ?_⟩
  · rw [hfilterPosts]; rfl
  · rw [hstore2]
    show (db1.posts ++ _).length = _
    rw [List.length_append, hposts1]
    rfl
  · rw [hstore2]
    show ((db1.engagements ++ _) ++ _).length = _
    rw [List.length_append, List.length_append, heng1]
    rfl
  · rw [hfilterPosts]; rfl
  · rw [hstore2]
    show (((db1.engagements ++ _) ++ _).filter fun e => e.post_id == db1.nextId).length = 2
    rw [List.filter_append, List.filter_append]
    rw [List.filter_eq_nil_iff.mpr hengOld]
    simp

/-- Claim C4 witness: re-ingesting `rawPostExample` twice into the empty
database yields one matching post row and exactly its two snapshots. -/
theorem C4_idempotent_reingestion_witness :
    FreshIds DB.empty ∧
    rawPostExample.author.username ≠ "" ∧
    (∀ p ∈ DB.empty.posts, p.post_id ≠ rawPostExample.post_id) ∧
    ((storePostsAndAuthors 2 (storePostsAndAuthors 1 DB.empty [rawPostExample])
        [rawPostExample]).posts.filter
      (fun p => p.post_id == rawPostExample.post_id)).length = 1 ∧
    (storePostsAndAuthors 2 (storePostsAndAuthors 1 DB.empty [rawPostExample])
      [rawPostExample]).posts.length = DB.empty.posts.length + 1 ∧
    (storePostsAndAuthors 2 (storePostsAndAuthors 1 DB.empty [rawPostExample])
      [rawPostExample]).engagements.length = DB.empty.engagements.length + 2 ∧
    ∃ pid,
      ((storePostsAndAuthors 2 (storePostsAndAuthors 1 DB.empty [rawPostExample])
          [rawPostExample]).posts.filter
        (fun p => p.post_id == rawPostExample.post_id)).map (fun p => p.id) = [pid] ∧
      ((storePostsAndAuthors 2 (storePostsAndAuthors 1 DB.empty [rawPostExample])
          [rawPostExample]).engagements.filter
        (fun e => e.post_id == pid)).length = 2 := by
  have h := C4_idempotent_reingestion DB.empty rawPostExample 1 2
    (by decide) (by decide) (by decide)
  exact ⟨by decide, by decide, by decide, h.1, h.2.1, h.2.2.1, h.2.2.2⟩

/-- A link row matches the existence check of the link loop exactly when
it is the checked (post, trend) pair. -/
theorem linkMatch_iff (pt : PostTrendRow) (pid tid : Nat) :
    (pt.post_id == pid && pt.trend_id == tid) = true ↔ pt = ⟨pid, tid⟩ := by
  cases pt with
  | mk a b => simp [PostTrendRow.mk.injEq]

/-- Unfolding one step of the link loop. -/
theorem createPostTrendLinks_cons (tid pid : Nat) (links : List PostTrendRow)
    (rest : List Nat) :
    createPostTrendLinks tid links (pid :: rest) =
      createPostTrendLinks tid
        (if links.any (fun q => q.post_id == pid && q.trend_id == tid) then links
         else links ++ [⟨pid, tid⟩]) rest := rfl

/-- The link loop never removes a link. -/
theorem mem_createPostTrendLinks_of_mem (tid : Nat) :
    ∀ (c : List Nat) (links : List PostTrendRow) (pt : PostTrendRow),
      pt ∈ links → pt ∈ createPostTrendLinks tid links c := by
  intro c
  induction c with
  | nil => intro links pt h; exact h
  | cons pid rest ih =>
    intro links pt h
    rw [createPostTrendLinks_cons]
    by_cases hany : (links.any fun q => q.post_id == pid && q.trend_id == tid) = true
    · rw [if_pos hany]; exact ih links pt h
    · rw [if_neg hany]; exact ih _ pt (List.mem_append_left _ h)

/-- After the link loop, every post of the cluster is linked. -/
theorem self_mem_createPostTrendLinks (tid : Nat) :
    ∀ (c : List Nat) (links : List PostTrendRow) (pid : Nat), pid ∈ c →
      (⟨pid, tid⟩ : PostTrendRow) ∈ createPostTrendLinks tid links c := by
  intro c
  induction c with
  | nil => intro links pid hmem; simp at hmem
  | cons q rest ih =>
    intro links pid hmem
    rw [createPostTrendLinks_cons]
    rcases List.mem_cons.mp hmem with heq | hmem'
    · subst heq
      by_cases hany : (links.any fun r => r.post_id == pid && r.trend_id == tid) = true
      · rw [if_pos hany]
        obtain ⟨r, hr, hmatch⟩ := List.any_eq_true.mp hany
        exact mem_createPostTrendLinks_of_mem tid rest links _
          (((linkMatch_iff r pid tid).mp hmatch) ▸ hr)
      · rw [if_neg hany]
        exact mem_createPostTrendLinks_of_mem tid rest _ _
          (List.mem_append_right _ (by simp))
    · by_cases hany : (links.any fun r => r.post_id == q && r.trend_id == tid) = true
      · rw [if_pos hany]; exact ih links pid hmem'
      · rw [if_neg hany]; exact ih _ pid hmem'

/-- The link loop preserves freedom from duplicate link rows. -/
theorem nodup_createPostTrendLinks (tid : Nat) :
    ∀ (c : List Nat) (links : List PostTrendRow), links.Nodup →
      (createPostTrendLinks tid links c).Nodup := by
  intro c
  induction c with
  | nil => intro _ h; exact h
  | cons pid rest ih =>
    intro links h
    rw [createPostTrendLinks_cons]
    by_cases hany : (links.any fun q => q.post_id == pid && q.trend_id == tid) = true
    · rw [if_pos hany]; exact ih links h
    · rw [if_neg hany]
      refine ih _ ?_
      have hnotin : (⟨pid, tid⟩ : PostTrendRow) ∉ links := by
        intro hin
        have hx := List.any_eq_true.mpr
          (⟨⟨pid, tid⟩, hin, by simp⟩ :
            ∃ x ∈ links, (x.post_id == pid && x.trend_id == tid) = true)
        exact hany hx
      simp [List.nodup_append, h, hnotin]

/-- The link loop is the identity once every pair of the cluster is
already linked. -/
theorem createPostTrendLinks_eq_of_all_mem (tid : Nat) :
    ∀ (c : List Nat) (links : List PostTrendRow),
      (∀ pid ∈ c, (⟨pid, tid⟩ : PostTrendRow) ∈ links) →
      createPostTrendLinks tid links c = links := by
  intro c
  induction c with
  | nil => intro _ _; rfl
  | cons q rest ih =>
    intro links hall
    rw [createPostTrendLinks_cons]
    have hany : (links.any fun r => r.post_id == q && r.trend_id == tid) = true :=
      List.any_eq_true.mpr
        (⟨⟨q, tid⟩, hall q (by simp), by simp⟩ :
          ∃ x ∈ links, (x.post_id == q && x.trend_id == tid) = true)
    rw [if_pos hany]
    exact ih links fun pid h => hall pid (List.mem_cons_of_mem _ h)

/-- Running the link loop twice on the same cluster adds nothing new. -/
theorem createPostTrendLinks_idem (tid : Nat) (c : List Nat) (links : List PostTrendRow) :
    createPostTrendLinks tid (createPostTrendLinks tid links c) c =
      createPostTrendLinks tid links c :=
  createPostTrendLinks_eq_of_all_mem tid c _
    fun pid h => self_mem_createPostTrendLinks tid c links pid h

/-- `createTrendBasic` on a title that resolves to an existing trend. -/
theorem createTrendBasic_found (db : DB) (titleRaw : String) (cluster : List Nat)
    (t : TrendRow) (htitle : pyStrip titleRaw ≠ "")
    (hfind : db.trends.find? (fun x => x.title == pyStrip titleRaw) = some t) :
    createTrendBasic titleRaw cluster db =
      ({ db with
         trends := db.trends.map fun x =>
           if x.id == t.id then { x with total_posts := cluster.length } else x,
         postTrends := createPostTrendLinks t.id db.postTrends cluster },
        some t.id) := by
  unfold createTrendBasic
  rw [if_neg htitle, hfind]

/-- `createTrendBasic` on a title with no existing trend. -/
theorem createTrendBasic_notfound (db : DB) (titleRaw : String) (cluster : List Nat)
    (htitle : pyStrip titleRaw ≠ "")
    (hfind : db.trends.find? (fun x => x.title == pyStrip titleRaw) = none) :
    createTrendBasic titleRaw cluster db =
      ({ db with
         trends := db.trends ++ [⟨db.nextId, pyStrip titleRaw, cluster.length⟩],
         nextId := db.nextId + 1,
         postTrends := createPostTrendLinks db.nextId db.postTrends cluster },
        some db.nextId) := by
  unfold createTrendBasic
  rw [if_neg htitle, hfind]

/-- Claim C10: whenever `_create_trend_basic` resolves a cluster to a
trend (fresh or merged), that trend's `total_posts` is exactly the size
of this one cluster; concretely, after resolving clusters `[1,2,3]` and
`[4,5]` under the same title the trend row records `total_posts = 2`
while 5 distinct posts are linked. -/
theorem C10_total_posts_is_last_cluster_size (db : DB) (titleRaw : String)
    (cluster : List Nat) (tid : Nat) (hfresh : FreshIds db)
    (h : (createTrendBasic titleRaw cluster db).2 = some tid) :
    (∀ t ∈ (createTrendBasic titleRaw cluster db).1.trends, t.id = tid →
      t.total_posts = cluster.length) ∧
    (∃ t ∈ (createTrendBasic titleRaw cluster db).1.trends, t.id = tid ∧
      t.total_posts = cluster.length) ∧
    dbMergeExample.trends = [⟨1, "T", 2⟩] ∧
    dbMergeExample.postTrends = [⟨1, 1⟩, ⟨2, 1⟩, ⟨3, 1⟩, ⟨4, 1⟩, ⟨5, 1⟩] ∧
    (∀ t ∈ dbMergeExample.trends, t.total_posts < dbMergeExample.postTrends.length) := by
  have hmain : (∀ t ∈ (createTrendBasic titleRaw cluster db).1.trends, t.id = tid →
      t.total_posts = cluster.length) ∧
      (∃ t ∈ (createTrendBasic titleRaw cluster db).1.trends, t.id = tid ∧
        t.total_posts = cluster.length) := by
    by_cases hT : pyStrip titleRaw = ""
    · exfalso
      unfold createTrendBasic at h
      rw [if_pos hT] at h
      exact Option.noConfusion h
    · cases hfind : db.trends.find? (fun x => x.title == pyStrip titleRaw) with
      | some t =>
        have heq := createTrendBasic_found db titleRaw cluster t hT hfind
        have htid : t.id = tid := by
          rw [heq] at h
          exact Option.some.inj h
        rw [heq]
        constructor
        · intro y hy hid
          obtain ⟨x, hx, hxy⟩ := List.mem_map.mp hy
          by_cases hxid : (x.id == t.id) = true
          · rw [← hxy]
            simp [hxid]
          · exfalso
            rw [← hxy] at hid
            rw [if_neg hxid] at hid
            have hne : x.id ≠ t.id := by simpa using hxid
            exact hne (hid.trans htid.symm)
        · refine ⟨⟨t.id, t.title, cluster.length⟩, ?_, htid, rfl⟩
          have hmem := List.mem_of_find?_eq_some hfind
          have hft : (fun x => if (x.id == t.id) = true then
              { x with total_posts := cluster.length } else x) t =
              (⟨t.id, t.title, cluster.length⟩ : TrendRow) := by
            simp
          exact hft ▸ List.mem_map_of_mem _ hmem
      | none =>
        have heq := createTrendBasic_notfound db titleRaw cluster hT hfind
        have htid : db.nextId = tid := by
          rw [heq] at h
          exact Option.some.inj h
        rw [heq]
        constructor
        · intro y hy hid
          rcases List.mem_append.mp hy with hold | hnew2
          · exfalso
            have := hfresh.2.1 y hold
            omega
          · have hy2 : y = ⟨db.nextId, pyStrip titleRaw, cluster.length⟩ :=
              List.mem_singleton.mp hnew2
            rw [hy2]
        · exact ⟨⟨db.nextId, pyStrip titleRaw, cluster.length⟩,
            List.mem_append_right _ (by simp), htid, rfl⟩
  exact ⟨hmain.1, hmain.2, by decide, by decide, by decide⟩

/-- Claim C10 witness: resolving cluster `[1, 2]` under title "T" against
the empty database returns trend id 1 whose `total_posts` is 2. -/
theorem C10_total_posts_is_last_cluster_size_witness :
    FreshIds DB.empty ∧
    (createTrendBasic "T" [1, 2] DB.empty).2 = some 1 ∧
    (∀ t ∈ (createTrendBasic "T" [1, 2] DB.empty).1.trends, t.id = 1 →
      t.total_posts = ([1, 2] : List Nat).length) ∧
    (∃ t ∈ (createTrendBasic "T" [1, 2] DB.empty).1.trends, t.id = 1 ∧
      t.total_posts = ([1, 2] : List Nat).length) := by
  have h := C10_total_posts_is_last_cluster_size DB.empty "T" [1, 2] 1
    (by decide) (by decide)
  exact ⟨by decide, by decide, h.1, h.2.1⟩

/-- Claim C3: trend resolution dedups by exact title and is idempotent:
an existing trend with the candidate title is reused (no second trend
row); link rows stay duplicate-free; re-running on the same cluster
reproduces the same state and id (no duplicate trends, links, or error);
and two clusters resolving to the same fresh title yield exactly one
trend row carrying links from both clusters. -/
theorem C3_title_dedup_idempotent (db : DB) (titleRaw : String) (c1 c2 : List Nat)
    (hfresh : FreshIds db) (htitle : pyStrip titleRaw ≠ "") :
    ((∃ t ∈ db.trends, t.title = pyStrip titleRaw) →
      (createTrendBasic titleRaw c1 db).1.trends.length = db.trends.length) ∧
    (db.postTrends.Nodup → (createTrendBasic titleRaw c1 db).1.postTrends.Nodup) ∧
    createTrendBasic titleRaw c1 (createTrendBasic titleRaw c1 db).1 =
      createTrendBasic titleRaw c1 db ∧
    ((∀ t ∈ db.trends, t.title ≠ pyStrip titleRaw) →
      ((createTrendBasic titleRaw c2 (createTrendBasic titleRaw c1 db).1).1.trends.filter
          (fun t => t.title == pyStrip titleRaw)).length = 1 ∧
      ∀ pid ∈ c1 ++ c2, (⟨pid, db.nextId⟩ : PostTrendRow) ∈
        (createTrendBasic titleRaw c2 (createTrendBasic titleRaw c1 db).1).1.postTrends) := by
  cases hfind : db.trends.find? (fun x => x.title == pyStrip titleRaw) with
  | some t =>
    have heq1 := createTrendBasic_found db titleRaw c1 t htitle hfind
    have hmemt := List.mem_of_find?_eq_some hfind
    have httl : t.title = pyStrip titleRaw := by
      have := List.find?_some hfind
      simpa using this
    have hfcomp : ((fun x : TrendRow => x.title == pyStrip titleRaw) ∘
        (fun x => if (x.id == t.id) = true then
          { x with total_posts := c1.length } else x)) =
        fun x : TrendRow => x.title == pyStrip titleRaw := by
      funext x
      by_cases hx : (x.id == t.id) = true <;> simp [Function.comp, hx]
    have hft : ((db.trends.map fun x => if (x.id == t.id) = true then
        { x with total_posts := c1.length } else x).find?
        (fun x => x.title == pyStrip titleRaw)) =
        some ⟨t.id, t.title, c1.length⟩ := by
      rw [List.find?_map, hfcomp, hfind]
      simp
    have heq2 := createTrendBasic_found
      ({ db with
         trends := db.trends.map fun x => if (x.id == t.id) = true then
           { x with total_posts := c1.length } else x,
         postTrends := createPostTrendLinks t.id db.postTrends c1 })
      titleRaw c1 ⟨t.id, t.title, c1.length⟩ htitle hft
    have hmapmap : ((db.trends.map fun x => if (x.id == t.id) = true then
        { x with total_posts := c1.length } else x).map
        fun x => if (x.id == t.id) = true then
          { x with total_posts := c1.length } else x) =
        db.trends.map fun x => if (x.id == t.id) = true then
          { x with total_posts := c1.length } else x := by
      rw [List.map_map]
      apply List.map_congr_left
      intro x _
      by_cases hx : (x.id == t.id) = true <;> simp [Function.comp, hx]
    refine ⟨?_, ?_, ?_, ?_⟩
    · intro _
      rw [heq1]
      dsimp only
      rw [List.length_map]
    · intro hnd
      rw [heq1]
      exact nodup_createPostTrendLinks t.id c1 db.postTrends hnd
    · rw [heq1]
      dsimp only
      rw [heq2]
      dsimp only
      rw [Prod.mk.injEq]
      refine ⟨?_, rfl⟩
      rw [DB.mk.injEq]
      exact ⟨rfl, rfl, rfl, hmapmap,
        createPostTrendLinks_idem t.id c1 db.postTrends, rfl, rfl⟩
    · intro hnone
      exfalso
      exact hnone t hmemt httl
  | none =>
    have heq1 := createTrendBasic_notfound db titleRaw c1 htitle hfind
    have hfind2 : ((db.trends ++ [(⟨db.nextId, pyStrip titleRaw, c1.length⟩ : TrendRow)]).find?
        (fun x => x.title == pyStrip titleRaw)) =
        some ⟨db.nextId, pyStrip titleRaw, c1.length⟩ := by
      rw [List.find?_append, hfind]
      simp
    have hmapold : ∀ (L : Nat), db.trends.map (fun x => if (x.id == db.nextId) = true then
        { x with total_posts := L } else x) = db.trends := by
      intro L
      conv_rhs => rw [← List.map_id db.trends]
      apply List.map_congr_left
      intro x hx
      have hne : x.id ≠ db.nextId := by
        have := hfresh.2.1 x hx
        omega
      simp [hne]
    refine ⟨?_, ?_, ?_, ?_⟩
    · intro hex
      exfalso
      obtain ⟨u, hu, hut⟩ := hex
      have := List.find?_eq_none.mp hfind u hu
      simp [hut] at this
    · intro hnd
      rw [heq1]
      exact nodup_createPostTrendLinks db.nextId c1 db.postTrends hnd
    · rw [heq1]
      dsimp only
      rw [createTrendBasic_found _ titleRaw c1 ⟨db.nextId, pyStrip titleRaw, c1.length⟩
        htitle hfind2]
      dsimp only
      rw [Prod.mk.injEq]
      refine ⟨?_, rfl⟩
      rw [DB.mk.injEq]
      refine ⟨rfl, rfl, rfl, ?_, ?_, rfl, rfl⟩
      · rw [List.map_append, hmapold c1.length]
        simp
      · exact createPostTrendLinks_idem db.nextId c1 db.postTrends
    · intro hnone
      rw [heq1]
      dsimp only
      have heq2 := createTrendBasic_found
        ({ db with
           trends := db.trends ++ [⟨db.nextId, pyStrip titleRaw, c1.length⟩],
           nextId := db.nextId + 1,
           postTrends := createPostTrendLinks db.nextId db.postTrends c1 })
        titleRaw c2 ⟨db.nextId, pyStrip titleRaw, c1.length⟩ htitle hfind2
      rw [heq2]
      dsimp only
      constructor
      · rw [List.map_append, hmapold c2.length]
        have hfilnil : db.trends.filter (fun t => t.title == pyStrip titleRaw) = [] := by
          apply List.filter_eq_nil_iff.mpr
          intro u hu
          simp [hnone u hu]
        rw [List.filter_append, hfilnil]
        simp
      · intro pid hpid
        rcases List.mem_append.mp hpid with h1 | h2
        · exact mem_createPostTrendLinks_of_mem db.nextId c2 _ _
            (self_mem_createPostTrendLinks db.nextId c1 db.postTrends pid h1)
        · exact self_mem_createPostTrendLinks db.nextId c2 _ pid h2

/-- Claim C3 witness: resolving cluster `[1, 2, 3]` under the fresh title
"T" against the empty database, the dedup/idempotence facts at that
input. -/
theorem C3_title_dedup_idempotent_witness :
    FreshIds DB.empty ∧ pyStrip "T" ≠ "" ∧
    (DB.empty.postTrends.Nodup →
      (createTrendBasic "T" [1, 2, 3] DB.empty).1.postTrends.Nodup) ∧
    createTrendBasic "T" [1, 2, 3] (createTrendBasic "T" [1, 2, 3] DB.empty).1 =
      createTrendBasic "T" [1, 2, 3] DB.empty ∧
    ((∀ t ∈ DB.empty.trends, t.title ≠ pyStrip "T") →
      ((createTrendBasic "T" [4, 5]
          (createTrendBasic "T" [1, 2, 3] DB.empty).1).1.trends.filter
          (fun t => t.title == pyStrip "T")).length = 1 ∧
      ∀ pid ∈ ([1, 2, 3] ++ [4, 5] : List Nat), (⟨pid, DB.empty.nextId⟩ : PostTrendRow) ∈
        (createTrendBasic "T" [4, 5]
          (createTrendBasic "T" [1, 2, 3] DB.empty).1).1.postTrends) := by
  have h := C3_title_dedup_idempotent DB.empty "T" [1, 2, 3] [4, 5]
    (by decide) (by decide)
  exact ⟨by decide, by decide, h.2.1, h.2.2.1, h.2.2.2⟩

end TrendAnalyzer
